import Mathlib

/-!
# Verification of the anoncreds issuer core (CL signatures + revocation accumulator)

Shallow embedding of `src/services/crypto/anoncreds/issuer.rs` (module `Issuer`)
and the attribute-canonicalization helper `attr_common_view` from
`src/services/anoncreds/helpers.rs`.

Big integers (`BigNumber`) are modelled as `Nat` with explicit `%`-reductions
exactly where the source reduces (`mod_exp`, `modulus`, `mod_div` reduce; plain
`mul` does not).  The pairing group `G1` is a cyclic group of prime order `q`,
modelled additively as `ZMod q`; the scalar field `Fq` is `ZMod q` as well, with
scalar multiplication given by ring multiplication.  Randomness (safe primes,
`rand`, `rand_range`, `GroupOrderElement::new`) and the SHA hash are external
primitives of the wrappers; they enter the model as explicit oracle arguments.
Fallible operations return `Except CryptoError`.
-/

/-- Error type of the crypto service.  `invalidStructure` carries the formatted
message from the source.  `backendError` stands for the errors raised inside the
`BigNumber` wrapper (OpenSSL failures, e.g. a non-invertible element passed to
`inverse`/`mod_div`); the wrapper source is not part of this repository and no
claim depends on the exact error value produced there. -/
inductive CryptoError where
  | invalidStructure (msg : String)
  | backendError
deriving DecidableEq

instance exceptDecEq {ε α : Type} [DecidableEq ε] [DecidableEq α] : DecidableEq (Except ε α) := fun x y =>
  match x, y with
  | .ok a, .ok b =>
    if h : a = b then .isTrue (by rw [h]) else .isFalse (by intro hc; cases hc; exact h rfl)
  | .error a, .error b =>
    if h : a = b then .isTrue (by rw [h]) else .isFalse (by intro hc; cases hc; exact h rfl)
  | .ok _, .error _ => .isFalse (by intro hc; cases hc)
  | .error _, .ok _ => .isFalse (by intro hc; cases hc)

/-- `BigNumber::inverse(a, n)`: the modular inverse of `a` modulo `n`, `none`
when no inverse exists (the wrapper surfaces that as an error).  Implemented by
search so that the returned value is the unique inverse in `[0, n)`. -/
def modInverse (a n : Nat) : Option Nat :=
  (List.range n).find? (fun b => (a * b) % n == 1 % n)

/-- `mod_div(z, a, n) = z * a^(-1) mod n` (see the spec note in §4.4.3). -/
def modDiv (z a n : Nat) : Option Nat :=
  (modInverse a n).map (fun ai => z * ai % n)

/-- `PublicKey` (primary CL key): the `r` map from attribute name to base value
is modelled as an association list. -/
structure PublicKey where
  n : Nat
  s : Nat
  rms : Nat
  r : List (String × Nat)
  rctxt : Nat
  z : Nat
deriving DecidableEq

/-- `SecretKey`: the stored halves `p = (P-1)/2`, `q = (Q-1)/2` of the safe
primes `P`, `Q`. -/
structure SecretKey where
  p : Nat
  q : Nat
deriving DecidableEq

namespace Issuer

/-- The attribute-product loop of `Issuer::_sign` (issuer.rs lines 230-240):
`rx` starts at `1` and for every attribute `(key, value)` it is multiplied
(without reduction) by `pk.r[key] ^ value[1] mod n`.  A missing key in `pk.r`
or a missing encoded value aborts with `InvalidStructure`. -/
def computeRx (pk : PublicKey) : List (String × List Nat) → Nat → Except CryptoError Nat
  | [], rx => .ok rx
  | kv :: rest, rx =>
    match List.lookup kv.1 pk.r with
    | none => .error (.invalidStructure ("Value by key \x27" ++ kv.1 ++ "\x27 not found in pk.r"))
    | some pkr =>
      match kv.2[1]? with
      | none => .error (.invalidStructure ("Encoded value by key \x27" ++ kv.1 ++ "\x27 not found in attributes"))
      | some curVal => computeRx pk rest (rx * (pkr ^ curVal % pk.n))

/-- The mathematical product `Rx = prod_a r[a] ^ encoded_a` over the attribute
map (encoded value = second element of the attribute pair), as the spec words
it. -/
def RxProd (pk : PublicKey) (attributes : List (String × List Nat)) : Nat :=
  (attributes.map (fun kv => ((List.lookup kv.1 pk.r).getD 0) ^ (kv.2[1]?.getD 0))).prod

/-- Lines 242-248 of `Issuer::_sign`: multiply `rx` by `rctxt^m2 mod n` and,
when `u != 0`, by `u mod n`. -/
def signRx2 (pk : PublicKey) (m2 rx0 u : Nat) : Nat :=
  if u ≠ 0 then rx0 * (pk.rctxt ^ m2 % pk.n) * (u % pk.n) else rx0 * (pk.rctxt ^ m2 % pk.n)

/-- `Issuer::_sign` up to and including the `mod_div` (issuer.rs lines 227-256,
skipping the `e`-steps): returns `Z * (S^v * Rx)^(-1) mod n` where `Rx` also
carries the `rctxt^m2` factor and, when `u != 0`, the factor `u mod n`. -/
def signBase (pk : PublicKey) (m2 : Nat) (attributes : List (String × List Nat))
    (v u : Nat) : Except CryptoError Nat :=
  match computeRx pk attributes 1 with
  | .error e => .error e
  | .ok rx0 =>
    match modDiv pk.z ((pk.s ^ v % pk.n) * signRx2 pk m2 rx0 u) pk.n with
    | none => .error .backendError
    | some a1 => .ok a1

/-- `Issuer::_sign` (issuer.rs lines 225-262): `signBase` followed by the
`e`-steps (lines 250-259).  In the source `n = p*q` and `e.modulus(n)` are
computed between the `rx` loop and the `mod_div`, but neither can fail nor
depends on them, so sequencing them after `signBase` is semantics-preserving.
The final exponent is the inverse of `e` modulo `secret_key.p * secret_key.q`
(the stored halves of the safe primes). -/
def sign (pk : PublicKey) (sk : SecretKey) (m2 : Nat)
    (attributes : List (String × List Nat)) (v u e : Nat) : Except CryptoError Nat :=
  match signBase pk m2 attributes v u with
  | .error err => .error err
  | .ok a1 =>
    match modInverse (e % (sk.p * sk.q)) (sk.p * sk.q) with
    | none => .error .backendError
    | some eInv => .ok (a1 ^ eInv % pk.n)

/-- Follows the words of claim C2 (spec §4.4.3 step 4), for comparison with
`sign`: "Let `N = P*Q`; compute `e^(-1) mod N`", with `P = 2p+1`, `Q = 2q+1`
the safe primes, so that `N` is the public modulus `n`.  Identical to `sign`
except that the exponent is inverted modulo `(2p+1)*(2q+1)`. -/
def signSpecModulusN (pk : PublicKey) (sk : SecretKey) (m2 : Nat)
    (attributes : List (String × List Nat)) (v u e : Nat) : Except CryptoError Nat :=
  match signBase pk m2 attributes v u with
  | .error err => .error err
  | .ok a1 =>
    match modInverse (e % ((2 * sk.p + 1) * (2 * sk.q + 1))) ((2 * sk.p + 1) * (2 * sk.q + 1)) with
    | none => .error .backendError
    | some eInv => .ok (a1 ^ eInv % pk.n)

end Issuer

/-! ## Pairing-group layer

`PointG1` is a cyclic group of prime order `q` (the order of `GroupOrderElement`,
the scalar field `Fq`); we model it additively as `ZMod q` and `Fq` as `ZMod q`,
with scalar multiplication `point.mul(scalar)` given by ring multiplication and
`PointG1::new_inf()` by `0`.  `Fq` inverse is the (total) `ZMod` inverse. -/

/-- `RevocationPublicKey` (field order as in `RevocationPublicKey::new`). -/
structure RevocationPublicKey (q : Nat) where
  g : ZMod q
  h : ZMod q
  h0 : ZMod q
  h1 : ZMod q
  h2 : ZMod q
  htilde : ZMod q
  u : ZMod q
  pk : ZMod q
  y : ZMod q
  x : ZMod q
deriving DecidableEq

/-- `RevocationSecretKey`. -/
structure RevocationSecretKey (q : Nat) where
  x : ZMod q
  sk : ZMod q
deriving DecidableEq

/-- `Accumulator` state: the accumulator point, the member-index set `v`
(a `HashSet<i32>`, modelled as a duplicate-free `List Int`: `insert` adds an
absent element only and `erase` removes it, so the list carries exactly the
set; the list order stands for the unspecified `HashSet` iteration order),
the capacity and the next index. -/
structure Accumulator (q : Nat) where
  acc : ZMod q
  v : List Int
  max_claim_num : Int
  current_i : Int
deriving DecidableEq

/-- `AccumulatorPublicKey`: the GT element `z`; GT is a cyclic group of order
`q` as well, modelled multiplicatively inside `ZMod q`. -/
structure AccumulatorPublicKey (q : Nat) where
  z : ZMod q
deriving DecidableEq

/-- `AccumulatorSecretKey`. -/
structure AccumulatorSecretKey (q : Nat) where
  gamma : ZMod q
deriving DecidableEq

/-- `Witness` (field order as in `Witness::new`). -/
structure Witness (q : Nat) where
  sigma_i : ZMod q
  u_i : ZMod q
  g_i : ZMod q
  omega : ZMod q
  v : List Int
deriving DecidableEq

/-- `NonRevocationClaim` (field order as in the construction at the end of
`_issue_non_revocation_claim`). -/
structure NonRevocationClaim (q : Nat) where
  sigma : ZMod q
  c : ZMod q
  vr_prime_prime : ZMod q
  witness : Witness q
  g_i : ZMod q
  i : Int
  m2 : ZMod q
deriving DecidableEq

/-- `RevocationRegistry`. -/
structure RevocationRegistry (q : Nat) where
  accumulator : Accumulator q
  acc_pk : AccumulatorPublicKey q
  claim_def_seq_no : Int
deriving DecidableEq

/-- `RevocationRegistryPrivate`: the accumulator secret and the tails map
(`HashMap<i32, PointG1>`, modelled as an association list). -/
structure RevocationRegistryPrivate (q : Nat) where
  acc_sk : AccumulatorSecretKey q
  tails : List (Int × ZMod q)
deriving DecidableEq

/-- `Schema`. -/
structure Schema where
  seq_no : Int
  attribute_names : List String
deriving DecidableEq

/-- `ClaimRequest`. -/
structure ClaimRequest (q : Nat) where
  prover_did : String
  u : Nat
  ur : Option (ZMod q)
deriving DecidableEq

/-- `ClaimDefinition`. -/
structure ClaimDefinition (q : Nat) where
  public_key : PublicKey
  public_key_revocation : Option (RevocationPublicKey q)
  schema_seq_no : Int
  signature_type : String
deriving DecidableEq

/-- `ClaimDefinitionPrivate`. -/
structure ClaimDefinitionPrivate (q : Nat) where
  secret_key : SecretKey
  secret_key_revocation : Option (RevocationSecretKey q)
deriving DecidableEq

/-- `PrimaryClaim`. -/
structure PrimaryClaim where
  m2 : Nat
  a : Nat
  e : Nat
  v_prime : Nat
deriving DecidableEq

/-- `Claims`: the pair returned by `create_claim`. -/
structure Claims (q : Nat) where
  primary_claim : PrimaryClaim
  non_revocation_claim : Option (NonRevocationClaim q)
deriving DecidableEq

/-- Modelled from the spec: `Accumulator::is_full` is declared in the types
module, which is not under `src/`.  Spec §4.4.4: the issuance precondition is
`¬ is_full`, i.e. `|v| < max_claim_num`, so `is_full` holds iff
`max_claim_num ≤ |v|`. -/
def Accumulator.is_full {q : Nat} (a : Accumulator q) : Bool :=
  decide (a.max_claim_num ≤ (a.v.length : Int))

namespace Issuer

variable (q : Nat)

/-- `GroupOrderElement::from_bytes(transform_u32_to_array_of_u8(i as u32))`:
the index `i` wrapped to `u32` (4 big-endian bytes) and read back as an `Fq`
scalar. -/
def scalarOfIndex (i : Int) : ZMod q :=
  ((i % 4294967296).toNat : ZMod q)

/-- `gamma.pow_mod(scalarOfIndex i)`: `γ` raised to the scalar made of index
`i`, in `Fq`. -/
def gammaPowIdx (gamma : ZMod q) (i : Int) : ZMod q :=
  gamma ^ (scalarOfIndex q i).val

/-- `GroupOrderElement::inverse`: the inverse in the scalar field `Fq`.
Computed by search so that it kernel-evaluates; on the prime group order it
agrees with the field inverse (and is `0` at `0`). -/
def fqInverse (x : ZMod q) : ZMod q :=
  ((modInverse x.val q).getD 0 : ZMod q)

/-- The tails-construction loop of `Issuer::issue_accumulator` (issuer.rs
lines 128-138): `for i in 0..2*max_claim_num`, skipping `i = max_claim_num+1`,
insert `tails[i] = g·γ^i`. -/
def accumulatorTails (gP gamma : ZMod q) (max_claim_num : Int) : List (Int × ZMod q) :=
  ((List.range (2 * max_claim_num).toNat).map (fun k => (k : Int))).filterMap
    (fun i => if i ≠ max_claim_num + 1 then some (i, gP * gammaPowIdx q gamma i) else none)

/-- `Issuer::issue_accumulator` (issuer.rs lines 125-155).  `gamma` is the
sampled accumulator secret and `pairGG` stands for the pairing value
`Pair::pair(pk_r.g, pk_r.g)` (GT element). -/
def issue_accumulator (pk_r : RevocationPublicKey q) (max_claim_num claim_def_seq_no : Int)
    (gamma : ZMod q) (pairGG : ZMod q) :
    RevocationRegistry q × RevocationRegistryPrivate q :=
  let g := accumulatorTails q pk_r.g gamma max_claim_num
  let z := pairGG ^ (gammaPowIdx q gamma (max_claim_num + 1)).val
  let acc : Accumulator q := ⟨0, ∅, max_claim_num, 1⟩
  (⟨acc, ⟨z⟩, claim_def_seq_no⟩, ⟨⟨gamma⟩, g⟩)

/-- The `omega` loop of `_issue_non_revocation_claim` (issuer.rs lines
296-302): for each `j` in the member set, add `tails[max_claim_num + 1 - j + i]`;
a missing tail aborts.  The members are visited in the list order standing
for the unspecified `HashSet` iteration order; the sum does not depend on it. -/
def omegaFold (g : List (Int × ZMod q)) (max_claim_num i : Int) :
    List Int → ZMod q → Except CryptoError (ZMod q)
  | [], om => .ok om
  | j :: rest, om =>
    let index := max_claim_num + 1 - j + i
    match List.lookup index g with
    | none => .error (.invalidStructure ("Value by key \x27" ++ toString index ++ "\x27 not found in g"))
    | some t => omegaFold g max_claim_num i rest (om + t)

/-- The body of `Issuer::_issue_non_revocation_claim` after the capacity
check and the `current_i` increment (issuer.rs lines 275-334), with the chosen
index `i` and the already-incremented accumulator `acc1` as parameters. -/
def issueNRCBody (pk_r : RevocationPublicKey q) (sk_r : RevocationSecretKey q)
    (g : List (Int × ZMod q)) (sk_accum : AccumulatorSecretKey q) (context_attribute : Nat)
    (ur : ZMod q) (vr_prime_prime c : ZMod q) (timestamp : Int)
    (i : Int) (acc1 : Accumulator q) :
    Except CryptoError (NonRevocationClaim q × Int) × Accumulator q :=
  match List.lookup i g with
  | none =>
    (.error (.invalidStructure ("Value by key \x27" ++ toString i ++ "\x27 not found in g")), acc1)
  | some g_i =>
    match omegaFold q g acc1.max_claim_num i acc1.v 0 with
    | .error err => (.error err, acc1)
    | .ok omega =>
      match List.lookup (acc1.max_claim_num + 1 - i) g with
      | none =>
        (.error (.invalidStructure
          ("Value by key \x27" ++ toString (acc1.max_claim_num + 1 - i) ++ "\x27 not found in g")), acc1)
      | some t =>
        (.ok
          (⟨(pk_r.h0 + pk_r.h1 * (context_attribute : ZMod q) + ur + g_i +
               pk_r.h2 * vr_prime_prime) * fqInverse q (sk_r.x + c),
            c, vr_prime_prime,
            ⟨pk_r.g * fqInverse q (sk_r.sk + gammaPowIdx q sk_accum.gamma i),
             pk_r.u * gammaPowIdx q sk_accum.gamma i, g_i, omega, acc1.v.insert i⟩,
            g_i, i, (context_attribute : ZMod q)⟩, timestamp),
         { acc1 with acc := acc1.acc + t, v := acc1.v.insert i })

/-- `Issuer::_issue_non_revocation_claim` (issuer.rs lines 264-335).  The
mutable registry borrow is modelled by threading the `Accumulator` state: the
returned state is the registry's accumulator after the call, on the error paths
as well (in particular `current_i` has already been incremented when a tail
lookup fails).  `vr_prime_prime` and `c` are the sampled scalars
(`GroupOrderElement::new`), `timestamp` the clock reading.  The `sigma`
computation ((h0 + h1·m2 + ur + g_i + h2·vr'')·(x+c)⁻¹), `omega`, `sigma_i`
((sk+γ^i)⁻¹·g), `u_i` (u·γ^i) and the claim assembly live in `issueNRCBody`. -/
def issue_non_revocation_claim (pk_r : RevocationPublicKey q) (sk_r : RevocationSecretKey q)
    (g : List (Int × ZMod q)) (sk_accum : AccumulatorSecretKey q) (context_attribute : Nat)
    (ur : ZMod q) (seq_number : Option Int) (vr_prime_prime c : ZMod q) (timestamp : Int)
    (accumulator : Accumulator q) :
    Except CryptoError (NonRevocationClaim q × Int) × Accumulator q :=
  if accumulator.is_full then
    (.error (.invalidStructure "Accumulator is full. New one must be issued."), accumulator)
  else
    issueNRCBody q pk_r sk_r g sk_accum context_attribute ur vr_prime_prime c timestamp
      (seq_number.getD accumulator.current_i)
      { accumulator with current_i := accumulator.current_i + 1 }

/-- `Issuer::revoke` (issuer.rs lines 358-367): remove `i` from `v` first,
then look up `tails[max_claim_num + 1 - i]` and subtract it from `acc`; on a
missing tail the error is returned with the removal already applied (the
lookup does not depend on `v`, so the erase is folded into both branches).
The state is threaded as in `issue_non_revocation_claim`. -/
def revoke (g : List (Int × ZMod q)) (i : Int) (timestamp : Int) (accumulator : Accumulator q) :
    Except CryptoError Int × Accumulator q :=
  match List.lookup (accumulator.max_claim_num + 1 - i) g with
  | none =>
    (.error (.invalidStructure
      ("Value by key \x27" ++ toString (accumulator.max_claim_num + 1 - i) ++ "\x27 not found in g")),
     { accumulator with v := accumulator.v.erase i })
  | some element =>
    (.ok timestamp, { accumulator with v := accumulator.v.erase i, acc := accumulator.acc - element })

end Issuer

/-- `attr_common_view` (helpers.rs lines 16-18):
`attr.replace(" ", "").to_lowercase()` — strip all spaces, then lowercase.
(`to_lowercase` is Unicode lowercasing; `Char.toLower` agrees with it on the
ASCII attribute names used throughout the repository.) -/
def attr_common_view (attr : String) : String :=
  ⟨(attr.data.filter (fun ch => ch ≠ ' ')).map Char.toLower⟩

namespace Issuer

variable (q : Nat)

/-- `Issuer::_gen_x` (issuer.rs lines 115-123): `rand_range(p*q - 3) + 2`.
The uniform draw of `rand_range` is supplied through the oracle value `rand`,
reduced into the range. -/
def gen_x (p q rand : Nat) : Nat :=
  rand % (p * q - 3) + 2

/-- `Issuer::_generate_keys` (issuer.rs lines 67-95).  `P`, `Q` are the
generated safe primes, `xQr` the uniform value squared by `random_qr`
(modelled from the spec §4.4.1 step 2: the helpers module defining
`random_qr` is not under `src/`; it returns `x² mod n` for uniform `x`),
`xz`, `xRms`, `xRctxt` and `xOf a` the `rand_range` draws consumed by the
successive `_gen_x` calls. -/
def generate_keys (schema : Schema) (P Q xQr xz xRms xRctxt : Nat) (xOf : String → Nat) :
    PublicKey × SecretKey :=
  let p_prime := (P - 1) / 2
  let q_prime := (Q - 1) / 2
  let n := P * Q
  let s := xQr * xQr % n
  let r := schema.attribute_names.map
    (fun a => (a, s ^ gen_x p_prime q_prime (xOf a) % n))
  let z := s ^ gen_x p_prime q_prime xz % n
  let rms := s ^ gen_x p_prime q_prime xRms % n
  let rctxt := s ^ gen_x p_prime q_prime xRctxt % n
  (⟨n, s, rms, r, rctxt, z⟩, ⟨p_prime, q_prime⟩)

/-- Modelled from the spec: `bitwise_or_big_int` lives in the crypto helpers
module, which is not under `src/`.  Spec §4.3: OR over the byte
representations zero-padded to the longer operand — that is the bitwise OR of
the two naturals. -/
def bitwise_or_big_int (a b : Nat) : Nat := a ||| b

/-- `Issuer::_generate_v_prime_prime` (issuer.rs lines 350-356):
`bitwise_or(rand(LARGE_VPRIME_PRIME), 2^(LARGE_VPRIME_PRIME - 1))`.  The
`rand` draw is the oracle value `a`; the constant `LARGE_VPRIME_PRIME` (whose
defining module is not under `src/`) is a parameter. -/
def generate_v_prime_prime (large_vprime_prime a : Nat) : Nat :=
  bitwise_or_big_int a (2 ^ (large_vprime_prime - 1))

/-- `Issuer::_issue_primary_claim` (issuer.rs lines 205-223).  `v_rand` is the
`rand(LARGE_VPRIME_PRIME)` draw and `e` the prime produced by
`generate_prime_in_range` (both oracle values). -/
def issue_primary_claim (public_key : PublicKey) (secret_key : SecretKey)
    (u context_attribute : Nat) (attributes : List (String × List Nat))
    (large_vprime_prime v_rand e : Nat) : Except CryptoError PrimaryClaim :=
  let v_prime_prime := generate_v_prime_prime large_vprime_prime v_rand
  match sign public_key secret_key context_attribute attributes v_prime_prime u e with
  | .error err => .error err
  | .ok a => .ok ⟨context_attribute, a, e, v_prime_prime⟩

/-- `Issuer::create_claim` (issuer.rs lines 157-191).  `ctxOf` models
`_generate_context_attribute` (a total function of the registry's
`claim_def_seq_no` and the prover DID whose value is a SHA-hash reduced mod
`2^LARGE_MASTER_SECRET`; the hash is an external primitive).  The `RefCell`
registry is threaded as state, so mutations made by
`issue_non_revocation_claim` survive an error return. -/
def create_claim (claim_definition : ClaimDefinition q)
    (claim_definition_private : ClaimDefinitionPrivate q)
    (registry : RevocationRegistry q) (registry_private : RevocationRegistryPrivate q)
    (claim_request : ClaimRequest q) (attributes : List (String × List Nat))
    (user_revoc_index : Option Int) (ctxOf : Int → String → Nat)
    (large_vprime_prime v_rand e : Nat) (vr_prime_prime c : ZMod q) (timestamp : Int) :
    Except CryptoError (Claims q) × RevocationRegistry q :=
  match issue_primary_claim claim_definition.public_key claim_definition_private.secret_key
      claim_request.u (ctxOf registry.claim_def_seq_no claim_request.prover_did) attributes
      large_vprime_prime v_rand e with
  | .error err => (.error err, registry)
  | .ok primary_claim =>
    match claim_definition.public_key_revocation with
    | none => (.ok ⟨primary_claim, none⟩, registry)
    | some pk_r =>
      match claim_definition_private.secret_key_revocation with
      | none => (.error (.invalidStructure "Field secret_key_revocation not found"), registry)
      | some sk_r =>
        match claim_request.ur with
        | none => (.error (.invalidStructure "Field ur not found"), registry)
        | some ur =>
          match issue_non_revocation_claim q pk_r sk_r registry_private.tails
              registry_private.acc_sk (ctxOf registry.claim_def_seq_no claim_request.prover_did)
              ur user_revoc_index vr_prime_prime c timestamp registry.accumulator with
          | (.error err, acc1) => (.error err, { registry with accumulator := acc1 })
          | (.ok (claim, _ts), acc1) =>
            (.ok ⟨primary_claim, some claim⟩, { registry with accumulator := acc1 })

end Issuer

/-! ## Helper lemmas -/

theorem modInverse_spec {a n b : Nat} (h : modInverse a n = some b) :
    a * b ≡ 1 [MOD n] := by
  have h2 := List.find?_some h
  have h3 : (a * b) % n = 1 % n := by simpa using h2
  exact h3

theorem modInverse_pos {a n b : Nat} (h : modInverse a n = some b) : 0 < n := by
  have h2 := List.mem_of_find?_eq_some h
  have h3 := List.mem_range.mp h2
  omega

theorem computeRx_modEq (pk : PublicKey) :
    ∀ (attributes : List (String × List Nat)) (init rx : Nat),
      Issuer.computeRx pk attributes init = .ok rx →
      rx ≡ init * Issuer.RxProd pk attributes [MOD pk.n] := by
  intro attrs
  induction attrs with
  | nil =>
    intro init rx h
    simp only [Issuer.computeRx] at h
    cases h
    simp [Issuer.RxProd, Nat.ModEq.refl]
  | cons kv rest ih =>
    intro init rx h
    cases hl : List.lookup kv.1 pk.r with
    | none => simp [Issuer.computeRx, hl] at h
    | some pkr =>
      cases hg : kv.2[1]? with
      | none => simp [Issuer.computeRx, hl, hg] at h
      | some cv =>
        simp only [Issuer.computeRx, hl, hg] at h
        have h2 := ih _ _ h
        have hstep : init * (pkr ^ cv % pk.n) ≡ init * pkr ^ cv [MOD pk.n] :=
          Nat.ModEq.mul_left init (Nat.mod_modEq _ _)
        have h3 : rx ≡ init * pkr ^ cv * Issuer.RxProd pk rest [MOD pk.n] :=
          h2.trans (hstep.mul_right _)
        have hR : Issuer.RxProd pk (kv :: rest) = pkr ^ cv * Issuer.RxProd pk rest := by
          simp only [Issuer.RxProd, List.map_cons, List.prod_cons, hl, hg, Option.getD_some]
        rw [hR, ← mul_assoc]
        exact h3

theorem pow_modEq_cancel {n m t w : Nat} (hm : 0 < m) (ht : t % m = 1 % m)
    (hw : w ^ m ≡ 1 [MOD n]) : w ^ t ≡ w [MOD n] := by
  rcases Nat.lt_or_ge 1 m with h1 | h1
  · have ht1 : t % m = 1 := by
      have h0 : 1 % m = 1 := Nat.mod_eq_of_lt h1
      omega
    have hdec : m * (t / m) + 1 = t := by
      have h0 := Nat.div_add_mod t m
      omega
    have h4 : (w ^ m) ^ (t / m) * w ≡ 1 ^ (t / m) * w [MOD n] :=
      (hw.pow (t / m)).mul_right w
    rw [one_pow, one_mul] at h4
    rw [← hdec, pow_add, pow_mul, pow_one]
    exact h4
  · have hm1 : m = 1 := by omega
    subst hm1
    have hw1 : w ≡ 1 [MOD n] := by simpa using hw
    have h4 : w ^ t ≡ 1 ^ t [MOD n] := hw1.pow t
    rw [one_pow] at h4
    exact h4.trans hw1.symm

theorem signBase_ok_elim {pk : PublicKey} {m2 : Nat} {attributes : List (String × List Nat)}
    {v u w : Nat} (hw : Issuer.signBase pk m2 attributes v u = .ok w) :
    ∃ rx0 ai, Issuer.computeRx pk attributes 1 = .ok rx0 ∧
      modInverse ((pk.s ^ v % pk.n) * Issuer.signRx2 pk m2 rx0 u) pk.n = some ai ∧
      w = pk.z * ai % pk.n := by
  unfold Issuer.signBase at hw
  split at hw
  · cases hw
  next rx0 heq =>
    split at hw
    next hdd => cases hw
    next a1 hdd =>
      cases hw
      rw [modDiv, Option.map_eq_some'] at hdd
      obtain ⟨ai, hai, hval⟩ := hdd
      exact ⟨rx0, ai, heq, hai, hval.symm⟩

theorem sign_ok_elim {pk : PublicKey} {sk : SecretKey} {m2 : Nat}
    {attributes : List (String × List Nat)} {v u e A : Nat}
    (hA : Issuer.sign pk sk m2 attributes v u e = .ok A) :
    ∃ w ei, Issuer.signBase pk m2 attributes v u = .ok w ∧
      modInverse (e % (sk.p * sk.q)) (sk.p * sk.q) = some ei ∧
      A = w ^ ei % pk.n := by
  unfold Issuer.sign at hA
  split at hA
  · cases hA
  next a1 heq =>
    split at hA
    next hei => cases hA
    next ei hei =>
      cases hA
      exact ⟨a1, ei, heq, hei, rfl⟩

/-! ## C1 — signature verification equation -/

/-- C1 (counterexample): `_sign` succeeds on the public key
`(n, s, rms, r, rctxt, z) = (15, 1, 1, ∅, 1, 2)`, secret key `(p, q) = (1, 2)`,
`m2 = 0`, empty attribute map, `v'' = 1`, `u = 1`, prime `e = 3`, returning
`A = 2`, yet `A^e · S^v'' · Rx · rctxt^m2 · (u mod n) = 8 ≢ 2 = Z (mod 15)`:
the claimed equation does not hold for every input on which `_sign` returns. -/
theorem c1_sign_verification_counterexample :
    Issuer.sign ⟨15, 1, 1, [], 1, 2⟩ ⟨1, 2⟩ 0 [] 1 1 3 = .ok 2 ∧
    ¬ ((2 ^ 3 * 1 ^ 1 * Issuer.RxProd ⟨15, 1, 1, [], 1, 2⟩ [] * 1 ^ 0 * (1 % 15)) % 15
        = 2 % 15) := by
  constructor
  · decide
  · decide

/-- C1 (amended): whenever `_sign` returns `A` with `u ≠ 0` and the
`mod_div` base `W = Z·(S^v''·Rx)⁻¹ mod n` (the value of `signBase`) satisfies
`W^(p·q) ≡ 1 (mod n)` — as it does for honestly generated keys, where every
base is a power of the quadratic residue `s` and the blinded `u` lies in the
same subgroup of order dividing `p·q` — then
`A^e · S^v'' · Rx · rctxt^m2 · (u mod n) ≡ Z (mod n)` with
`Rx = ∏_a r[a]^encoded_a` over the attribute map. -/
theorem sign_verification_equation (pk : PublicKey) (sk : SecretKey) (m2 : Nat)
    (attributes : List (String × List Nat)) (v u e A w : Nat)
    (hu : u ≠ 0)
    (hw : Issuer.signBase pk m2 attributes v u = .ok w)
    (hord : w ^ (sk.p * sk.q) ≡ 1 [MOD pk.n])
    (hA : Issuer.sign pk sk m2 attributes v u e = .ok A) :
    (A ^ e * pk.s ^ v * Issuer.RxProd pk attributes * pk.rctxt ^ m2 * (u % pk.n)) % pk.n
      = pk.z % pk.n := by
  obtain ⟨rx0, ai, hrx, hai, hwv⟩ := signBase_ok_elim hw
  obtain ⟨w2, ei, hw2, hei, hAv⟩ := sign_ok_elim hA
  rw [hw] at hw2
  cases hw2
  rw [Issuer.signRx2, if_pos hu] at hai
  -- basic facts
  have h1 : (pk.s ^ v % pk.n) * (rx0 * (pk.rctxt ^ m2 % pk.n) * (u % pk.n)) * ai
      ≡ 1 [MOD pk.n] := modInverse_spec hai
  have hm : 0 < sk.p * sk.q := modInverse_pos hei
  have h2 : (e % (sk.p * sk.q)) * ei ≡ 1 [MOD sk.p * sk.q] := modInverse_spec hei
  have ht : (ei * e) % (sk.p * sk.q) = 1 % (sk.p * sk.q) := by
    have h3 : e * ei ≡ (e % (sk.p * sk.q)) * ei [MOD sk.p * sk.q] :=
      (Nat.mod_modEq e (sk.p * sk.q)).symm.mul_right ei
    have h4 : e * ei ≡ 1 [MOD sk.p * sk.q] := h3.trans h2
    rw [mul_comm ei e]
    exact h4
  -- A^e ≡ w modulo n
  have hApow : A ^ e ≡ w ^ (ei * e) [MOD pk.n] := by
    have h5 : A ≡ w ^ ei [MOD pk.n] := by rw [hAv]; exact Nat.mod_modEq _ _
    have h6 : A ^ e ≡ (w ^ ei) ^ e [MOD pk.n] := h5.pow e
    rw [← pow_mul] at h6
    exact h6
  have hAw : A ^ e ≡ w [MOD pk.n] := hApow.trans (pow_modEq_cancel hm ht hord)
  -- the attribute product is congruent to the rx accumulator
  have hrx0 : rx0 ≡ Issuer.RxProd pk attributes [MOD pk.n] := by
    have h7 := computeRx_modEq pk attributes 1 rx0 hrx
    rwa [one_mul] at h7
  -- assemble
  have hX : pk.s ^ v * (Issuer.RxProd pk attributes * pk.rctxt ^ m2 * (u % pk.n))
      ≡ (pk.s ^ v % pk.n) * (rx0 * (pk.rctxt ^ m2 % pk.n) * (u % pk.n)) [MOD pk.n] := by
    have c1 : pk.s ^ v ≡ pk.s ^ v % pk.n [MOD pk.n] := (Nat.mod_modEq _ _).symm
    have c2 : pk.rctxt ^ m2 ≡ pk.rctxt ^ m2 % pk.n [MOD pk.n] := (Nat.mod_modEq _ _).symm
    exact c1.mul (((hrx0.symm.mul c2).mul_right (u % pk.n)))
  have hwz : w ≡ pk.z * ai [MOD pk.n] := by rw [hwv]; exact Nat.mod_modEq _ _
  have main : A ^ e * (pk.s ^ v * (Issuer.RxProd pk attributes * pk.rctxt ^ m2 * (u % pk.n)))
      ≡ pk.z [MOD pk.n] := by
    have s1 : A ^ e * (pk.s ^ v * (Issuer.RxProd pk attributes * pk.rctxt ^ m2 * (u % pk.n)))
        ≡ w * ((pk.s ^ v % pk.n) * (rx0 * (pk.rctxt ^ m2 % pk.n) * (u % pk.n))) [MOD pk.n] :=
      hAw.mul hX
    have s2 : w * ((pk.s ^ v % pk.n) * (rx0 * (pk.rctxt ^ m2 % pk.n) * (u % pk.n)))
        ≡ pk.z * ai * ((pk.s ^ v % pk.n) * (rx0 * (pk.rctxt ^ m2 % pk.n) * (u % pk.n)))
          [MOD pk.n] := hwz.mul_right _
    have s3 : pk.z * ai * ((pk.s ^ v % pk.n) * (rx0 * (pk.rctxt ^ m2 % pk.n) * (u % pk.n)))
        = pk.z * ((pk.s ^ v % pk.n) * (rx0 * (pk.rctxt ^ m2 % pk.n) * (u % pk.n)) * ai) := by
      ring
    have s4 : pk.z * ((pk.s ^ v % pk.n) * (rx0 * (pk.rctxt ^ m2 % pk.n) * (u % pk.n)) * ai)
        ≡ pk.z * 1 [MOD pk.n] := Nat.ModEq.mul_left pk.z h1
    have s5 := (s1.trans s2).trans (s3 ▸ s4)
    rwa [mul_one] at s5
  have harr : A ^ e * pk.s ^ v * Issuer.RxProd pk attributes * pk.rctxt ^ m2 * (u % pk.n)
      = A ^ e * (pk.s ^ v * (Issuer.RxProd pk attributes * pk.rctxt ^ m2 * (u % pk.n))) := by
    ring
  rw [harr]
  exact main

/-- C1 (witness): the amended theorem applied at the honest small key
`n = 77 = 7·11`, `s = 4`, `z = 16 = s²`, `p = 3`, `q = 5`, `m2 = 0`,
no attributes, `v'' = 1`, `u = 1`, `e = 13`: the signature `A = 60`
satisfies `60^13 · 4 ≡ 16 (mod 77)`. -/
theorem c1_sign_verification_witness :
    (60 ^ 13 * 4 ^ 1 * Issuer.RxProd ⟨77, 4, 1, [], 1, 16⟩ [] * 1 ^ 0 * (1 % 77)) % 77
      = 16 % 77 :=
  sign_verification_equation ⟨77, 4, 1, [], 1, 16⟩ ⟨3, 5⟩ 0 [] 1 1 13 60 4
    (by decide) (by decide) (by decide) (by decide)

/-! ## C2 — the signing exponent's modulus -/

/-- C2 (counterexample): with the honest key shape `P = 7 = 2·3+1`,
`Q = 11 = 2·5+1`, `n = P·Q = 77`, stored secret key `(3, 5)`, and `e = 13`,
`_sign` returns `A = 60 = w^(13⁻¹ mod 15) mod 77`, while the claim's formula
`A = w^(13⁻¹ mod P·Q) mod n` yields `15`: the exponent is not inverted modulo
`N = P·Q`. -/
theorem c2_exponent_modulus_counterexample :
    (2 * 3 + 1) * (2 * 5 + 1) = 77 ∧
    Issuer.sign ⟨77, 4, 1, [], 1, 16⟩ ⟨3, 5⟩ 0 [] 1 1 13 = .ok 60 ∧
    Issuer.signSpecModulusN ⟨77, 4, 1, [], 1, 16⟩ ⟨3, 5⟩ 0 [] 1 1 13 = .ok 15 ∧
    (60 : Nat) ≠ 15 := by
  refine ⟨by decide, by decide, by decide, by decide⟩

/-- C2 (amended): the exponent `_sign` applies to `W = Z·(S^v''·Rx)⁻¹ mod n`
is the modular inverse of `e` modulo `p·q` — the product of the two *stored*
secret-key values, i.e. `((P−1)/2)·((Q−1)/2) = φ(n)/4` — not modulo
`N = P·Q = n`: whenever `_sign` returns `A`, the exponent `ei` it used
satisfies `e·ei ≡ 1 (mod p·q)` and `A = W^ei mod n`. -/
theorem sign_exponent_inverse_mod_pq (pk : PublicKey) (sk : SecretKey) (m2 : Nat)
    (attributes : List (String × List Nat)) (v u e w ei A : Nat)
    (hw : Issuer.signBase pk m2 attributes v u = .ok w)
    (hei : modInverse (e % (sk.p * sk.q)) (sk.p * sk.q) = some ei)
    (hA : Issuer.sign pk sk m2 attributes v u e = .ok A) :
    A = w ^ ei % pk.n ∧ (e * ei) % (sk.p * sk.q) = 1 % (sk.p * sk.q) := by
  constructor
  · unfold Issuer.sign at hA
    rw [hw] at hA
    rw [hei] at hA
    cases hA
    rfl
  · have h1 : (e % (sk.p * sk.q)) * ei ≡ 1 [MOD sk.p * sk.q] := modInverse_spec hei
    have h2 : e * ei ≡ (e % (sk.p * sk.q)) * ei [MOD sk.p * sk.q] :=
      (Nat.mod_modEq e (sk.p * sk.q)).symm.mul_right ei
    exact h2.trans h1

/-- C2 (witness): at the concrete input of the counterexample, the exponent
actually applied is `7 = 13⁻¹ mod 15` (`13·7 ≡ 1 (mod 15)`), giving
`A = 4^7 mod 77 = 60`. -/
theorem c2_exponent_modulus_witness :
    (60 : Nat) = 4 ^ 7 % 77 ∧ (13 * 7) % (3 * 5) = 1 % (3 * 5) :=
  sign_exponent_inverse_mod_pq ⟨77, 4, 1, [], 1, 16⟩ ⟨3, 5⟩ 0 [] 1 1 13 4 7 60
    (by decide) (by decide) (by decide)

/-! ## C3 — the tails key set -/

/-- C3 (evaluation at the failing input): at `max_claim_num = L = 2`
(`γ = 1`, `g = 1`, group order 7), the tails map returned by
`issue_accumulator` has key list `[0, 1, 2]`: index `2L = 4` is absent and
there are only `2L − 1 = 3` entries, not the claimed `2L = 4` entries over
`{0,…,2L} \ {L+1}` — the construction loop runs over `0..2L` *exclusive*. -/
theorem c3_tails_key_set_off_by_one :
    ((Issuer.issue_accumulator 7 ⟨1, 0, 0, 0, 0, 0, 0, 0, 0, 0⟩ 2 0 1 1).2.tails).map Prod.fst
        = [0, 1, 2] ∧
    List.lookup 4 ((Issuer.issue_accumulator 7 ⟨1, 0, 0, 0, 0, 0, 0, 0, 0, 0⟩ 2 0 1 1).2.tails)
        = none ∧
    ((Issuer.issue_accumulator 7 ⟨1, 0, 0, 0, 0, 0, 0, 0, 0, 0⟩ 2 0 1 1).2.tails).length = 3 := by
  refine ⟨by decide, by decide, by decide⟩

/-! ## C4 — revoke on a missing tail -/

/-- C4 (counterexample): with `max_claim_num = 1`, member set `v = {1}` and an
empty tails map, `revoke` at `i = 1` (missing tail at key `1+1−1 = 1`) returns
`InvalidStructure` but does *not* leave the registry unchanged: `1` has been
removed from `v`. -/
theorem c4_revoke_partial_mutation_counterexample :
    List.lookup ((1 : Int) + 1 - 1) ([] : List (Int × ZMod 7)) = none ∧
    (Issuer.revoke 7 [] 1 0 ⟨0, [1], 1, 2⟩).1 =
      .error (.invalidStructure "Value by key \x271\x27 not found in g") ∧
    (Issuer.revoke 7 [] 1 0 ⟨0, [1], 1, 2⟩).2.v ≠ [1] := by
  refine ⟨by decide, by decide, by decide⟩

/-- C4 (amended): when the tails map has no entry at key
`max_claim_num + 1 − i`, `revoke` returns `InvalidStructure` and leaves `acc`,
`current_i` and `max_claim_num` unchanged, but `v` has already had `i` removed
(`v := v \ {i}` precedes the failing lookup); the registry is unchanged only
when `i` was not a member. -/
theorem revoke_missing_tail (q : Nat) (g : List (Int × ZMod q)) (i timestamp : Int)
    (a : Accumulator q)
    (h : List.lookup (a.max_claim_num + 1 - i) g = none) :
    Issuer.revoke q g i timestamp a =
      (.error (.invalidStructure
        ("Value by key \x27" ++ toString (a.max_claim_num + 1 - i) ++ "\x27 not found in g")),
       { a with v := a.v.erase i }) := by
  unfold Issuer.revoke
  rw [h]

/-- C4 (witness): the amended theorem at the counterexample input. -/
theorem c4_revoke_missing_tail_witness :
    Issuer.revoke 7 [] 1 0 ⟨0, [1], 1, 2⟩ =
      (.error (.invalidStructure
        ("Value by key \x27" ++ toString ((1 : Int) + 1 - 1) ++ "\x27 not found in g")),
       ⟨0, [], 1, 2⟩) :=
  revoke_missing_tail 7 [] 1 0 ⟨0, [1], 1, 2⟩ (by decide)

/-! ## C5 — when current_i is incremented -/

/-- C5 (counterexample): on a non-full registry (`L = 1`, `v = ∅`,
`current_i = 1`) with an empty tails map, non-revocation issuance fails with
`InvalidStructure` (missing tail) yet `current_i` has been changed: the
increment happens before the fallible tail lookups, so it is not true that an
erroring call leaves `current_i` unchanged. -/
theorem c5_current_i_counterexample :
    (Issuer.issue_non_revocation_claim 7 ⟨0, 0, 0, 0, 0, 0, 0, 0, 0, 0⟩ ⟨0, 0⟩ [] ⟨0⟩ 0 0
        none 0 0 0 ⟨0, [], 1, 1⟩).1 =
      .error (.invalidStructure "Value by key \x271\x27 not found in g") ∧
    (Issuer.issue_non_revocation_claim 7 ⟨0, 0, 0, 0, 0, 0, 0, 0, 0, 0⟩ ⟨0, 0⟩ [] ⟨0⟩ 0 0
        none 0 0 0 ⟨0, [], 1, 1⟩).2.current_i ≠ 1 := by
  refine ⟨by decide, by decide⟩

/-- Every branch of the post-check body returns a state with the `current_i`
it was given: only the increment before it touches `current_i`. -/
theorem issueNRCBody_current_i (q : Nat) (pk_r : RevocationPublicKey q)
    (sk_r : RevocationSecretKey q) (g : List (Int × ZMod q)) (sk_accum : AccumulatorSecretKey q)
    (context_attribute : Nat) (ur vr_prime_prime c : ZMod q) (timestamp i : Int)
    (acc1 : Accumulator q) :
    (Issuer.issueNRCBody q pk_r sk_r g sk_accum context_attribute ur vr_prime_prime c timestamp
        i acc1).2.current_i = acc1.current_i := by
  unfold Issuer.issueNRCBody
  split
  · rfl
  · split
    · rfl
    · split
      · rfl
      · rfl

/-- C5 (amended): `current_i` is unchanged when issuance fails on the
capacity check (the registry is returned untouched); on *every* call that
passes the capacity check — the missing-tail error paths included, not only
successful issuance — `current_i` comes back incremented by exactly one,
because the increment precedes the fallible tail lookups. -/
theorem current_i_increment_behavior (q : Nat) (pk_r : RevocationPublicKey q)
    (sk_r : RevocationSecretKey q) (g : List (Int × ZMod q)) (sk_accum : AccumulatorSecretKey q)
    (context_attribute : Nat) (ur vr_prime_prime c : ZMod q) (seq_number : Option Int)
    (timestamp : Int) (a : Accumulator q) :
    (a.is_full = true →
      Issuer.issue_non_revocation_claim q pk_r sk_r g sk_accum context_attribute ur seq_number
          vr_prime_prime c timestamp a =
        (.error (.invalidStructure "Accumulator is full. New one must be issued."), a)) ∧
    (a.is_full = false →
      (Issuer.issue_non_revocation_claim q pk_r sk_r g sk_accum context_attribute ur seq_number
          vr_prime_prime c timestamp a).2.current_i = a.current_i + 1) := by
  constructor
  · intro hfull
    simp [Issuer.issue_non_revocation_claim, hfull]
  · intro hnf
    simp [Issuer.issue_non_revocation_claim, hnf, issueNRCBody_current_i]

/-- C5 (witness): the amended theorem at a full registry (state returned
unchanged) and at the counterexample input (error, `current_i` bumped to 2). -/
theorem c5_current_i_witness :
    Issuer.issue_non_revocation_claim 7 ⟨0, 0, 0, 0, 0, 0, 0, 0, 0, 0⟩ ⟨0, 0⟩ [] ⟨0⟩ 0 0
        none 0 0 0 ⟨0, [1], 1, 2⟩ =
      (.error (.invalidStructure "Accumulator is full. New one must be issued."), ⟨0, [1], 1, 2⟩) ∧
    (Issuer.issue_non_revocation_claim 7 ⟨0, 0, 0, 0, 0, 0, 0, 0, 0, 0⟩ ⟨0, 0⟩ [] ⟨0⟩ 0 0
        none 0 0 0 ⟨0, [], 1, 1⟩).2.current_i = 1 + 1 :=
  ⟨(current_i_increment_behavior 7 ⟨0, 0, 0, 0, 0, 0, 0, 0, 0, 0⟩ ⟨0, 0⟩ [] ⟨0⟩ 0 0 0 0 none 0
      ⟨0, [1], 1, 2⟩).1 (by decide),
   (current_i_increment_behavior 7 ⟨0, 0, 0, 0, 0, 0, 0, 0, 0, 0⟩ ⟨0, 0⟩ [] ⟨0⟩ 0 0 0 0 none 0
      ⟨0, [], 1, 1⟩).2 (by decide)⟩

/-! ## C6, C7 — accumulator monotonicity and capacity -/

/-- Inversion of a successful non-revocation issuance: the claim's index is
the one chosen from `seq_number`/`current_i`, the tail at
`max_claim_num + 1 − i` was found, and the returned state is the input state
with `acc` increased by that tail, `i` inserted into `v` and `current_i`
incremented. -/
theorem issueNRC_ok_elim {q : Nat} {pk_r : RevocationPublicKey q} {sk_r : RevocationSecretKey q}
    {g : List (Int × ZMod q)} {sk_accum : AccumulatorSecretKey q} {context_attribute : Nat}
    {ur vr_prime_prime c : ZMod q} {seq_number : Option Int} {timestamp : Int}
    {a : Accumulator q} {cl : NonRevocationClaim q} {ts : Int} {a1 : Accumulator q}
    (h : Issuer.issue_non_revocation_claim q pk_r sk_r g sk_accum context_attribute ur
        seq_number vr_prime_prime c timestamp a = (.ok (cl, ts), a1)) :
    cl.i = seq_number.getD a.current_i ∧
    ∃ t, List.lookup (a.max_claim_num + 1 - seq_number.getD a.current_i) g = some t ∧
      a1 = ⟨a.acc + t, a.v.insert (seq_number.getD a.current_i), a.max_claim_num,
            a.current_i + 1⟩ := by
  unfold Issuer.issue_non_revocation_claim at h
  by_cases hfull : a.is_full
  · rw [if_pos hfull] at h
    simp at h
  · rw [if_neg hfull] at h
    unfold Issuer.issueNRCBody at h
    split at h
    · simp at h
    next g_i hgi =>
      split at h
      · simp at h
      next omega homega =>
        split at h
        · simp at h
        next t ht =>
          injection h with h1 h2
          injection h1 with h1
          injection h1 with hcl hts
          subst hcl
          subst h2
          refine ⟨rfl, t, ?_, rfl⟩
          exact ht

/-- C6: after a successful non-revocation issuance at index `i`, `i ∈ v` and
`acc = acc_prev + tails[L+1−i]`; after a successful `revoke(i)` (from a
duplicate-free member set), `i ∉ v` and `acc = acc_prev − tails[L+1−i]`; and
issuing at a fresh index `i` then immediately revoking `i` restores the pair
`(acc, v)`. -/
theorem accumulator_monotonicity (q : Nat) (pk_r : RevocationPublicKey q)
    (sk_r : RevocationSecretKey q) (g : List (Int × ZMod q)) (sk_accum : AccumulatorSecretKey q)
    (context_attribute : Nat) (ur vr_prime_prime c : ZMod q) (seq_number : Option Int)
    (timestamp ts2 : Int) (a : Accumulator q) (i : Int)
    (hnd : a.v.Nodup) (hi : i = seq_number.getD a.current_i) :
    (∀ cl ts a1 t,
      Issuer.issue_non_revocation_claim q pk_r sk_r g sk_accum context_attribute ur seq_number
          vr_prime_prime c timestamp a = (.ok (cl, ts), a1) →
      List.lookup (a.max_claim_num + 1 - i) g = some t →
      i ∈ a1.v ∧ a1.acc = a.acc + t) ∧
    (∀ ts3 a2 t,
      Issuer.revoke q g i ts2 a = (.ok ts3, a2) →
      List.lookup (a.max_claim_num + 1 - i) g = some t →
      i ∉ a2.v ∧ a2.acc = a.acc - t) ∧
    (∀ cl ts a1 ts3 a2, i ∉ a.v →
      Issuer.issue_non_revocation_claim q pk_r sk_r g sk_accum context_attribute ur seq_number
          vr_prime_prime c timestamp a = (.ok (cl, ts), a1) →
      Issuer.revoke q g i ts2 a1 = (.ok ts3, a2) →
      a2.acc = a.acc ∧ a2.v = a.v) := by
  subst hi
  refine ⟨?_, ?_, ?_⟩
  · intro cl ts a1 t hissue ht
    obtain ⟨hcli, t', ht', ha1⟩ := issueNRC_ok_elim hissue
    rw [ht] at ht'
    injection ht' with ht'
    subst ht'
    subst ha1
    exact ⟨List.mem_insert_self _ _, rfl⟩
  · intro ts3 a2 t hrev ht
    unfold Issuer.revoke at hrev
    rw [ht] at hrev
    injection hrev with h1 h2
    subst h2
    exact ⟨hnd.not_mem_erase, rfl⟩
  · intro cl ts a1 ts3 a2 hfresh hissue hrev
    obtain ⟨hcli, t, ht, ha1⟩ := issueNRC_ok_elim hissue
    subst ha1
    unfold Issuer.revoke at hrev
    simp only [List.insert_of_not_mem hfresh] at hrev
    rw [ht] at hrev
    injection hrev with h1 h2
    subst h2
    constructor
    · simp
    · simp [List.erase_cons_head]

/-- C6 (witness): on the group of order 7, state `(acc = 0, v = ∅, L = 2,
current_i = 1)` with tails `{1 ↦ 0, 2 ↦ 0}`: issuing (auto-index `i = 1`)
yields `1 ∈ v` and `acc + tails[2]`; revoking `1` from the same state gives
`1 ∉ v` and `acc − tails[2]`; and issue-then-revoke restores `(acc, v)`. -/
theorem c6_accumulator_monotonicity_witness :
    ((1 : Int) ∈ (⟨0 + 0, [1], 2, 2⟩ : Accumulator 7).v ∧
      (⟨0 + 0, [1], 2, 2⟩ : Accumulator 7).acc = (⟨0, [], 2, 1⟩ : Accumulator 7).acc + 0) ∧
    ((1 : Int) ∉ (⟨0 - 0, [], 2, 1⟩ : Accumulator 7).v ∧
      (⟨0 - 0, [], 2, 1⟩ : Accumulator 7).acc = (⟨0, [], 2, 1⟩ : Accumulator 7).acc - 0) ∧
    ((⟨0 + 0 - 0, [], 2, 2⟩ : Accumulator 7).acc = (⟨0, [], 2, 1⟩ : Accumulator 7).acc ∧
      (⟨0 + 0 - 0, [], 2, 2⟩ : Accumulator 7).v = (⟨0, [], 2, 1⟩ : Accumulator 7).v) := by
  have h := accumulator_monotonicity 7 ⟨0, 0, 0, 0, 0, 0, 0, 0, 0, 0⟩ ⟨0, 0⟩ [(1, 0), (2, 0)]
    ⟨0⟩ 0 0 0 0 none 0 5 ⟨0, [], 2, 1⟩ 1 (by decide) (by decide)
  refine ⟨?_, ?_, ?_⟩
  · exact h.1 ⟨0, 0, 0, ⟨0, 0, 0, 0, [1]⟩, 0, 1, 0⟩ 0 ⟨0 + 0, [1], 2, 2⟩ 0
      (by decide) (by decide)
  · exact h.2.1 5 ⟨0 - 0, [], 2, 1⟩ 0 (by decide) (by decide)
  · exact h.2.2 ⟨0, 0, 0, ⟨0, 0, 0, 0, [1]⟩, 0, 1, 0⟩ 0 ⟨0 + 0, [1], 2, 2⟩ 5
      ⟨0 + 0 - 0, [], 2, 2⟩ (by decide) (by decide) (by decide)

/-- C7: whenever the accumulator is full (`max_claim_num ≤ |v|`, in particular
`|v| = max_claim_num`), non-revocation issuance fails with
`InvalidStructure("Accumulator is full. New one must be issued.")`, no claim
is issued and the registry is unchanged; conversely a successful issuance
implies `|v| < max_claim_num`. -/
theorem accumulator_capacity (q : Nat) (pk_r : RevocationPublicKey q)
    (sk_r : RevocationSecretKey q) (g : List (Int × ZMod q)) (sk_accum : AccumulatorSecretKey q)
    (context_attribute : Nat) (ur vr_prime_prime c : ZMod q) (seq_number : Option Int)
    (timestamp : Int) (a : Accumulator q) :
    (a.max_claim_num ≤ (a.v.length : Int) →
      Issuer.issue_non_revocation_claim q pk_r sk_r g sk_accum context_attribute ur seq_number
          vr_prime_prime c timestamp a =
        (.error (.invalidStructure "Accumulator is full. New one must be issued."), a)) ∧
    (∀ cl ts a1,
      Issuer.issue_non_revocation_claim q pk_r sk_r g sk_accum context_attribute ur seq_number
          vr_prime_prime c timestamp a = (.ok (cl, ts), a1) →
      (a.v.length : Int) < a.max_claim_num) := by
  constructor
  · intro hfull
    have hb : a.is_full = true := by
      simp [Accumulator.is_full, hfull]
    simp [Issuer.issue_non_revocation_claim, hb]
  · intro cl ts a1 hok
    by_cases hfull : a.is_full
    · unfold Issuer.issue_non_revocation_claim at hok
      rw [if_pos hfull] at hok
      simp at hok
    · have hb : ¬ a.max_claim_num ≤ (a.v.length : Int) := by
        simpa [Accumulator.is_full] using hfull
      omega

/-- C7 (witness): the capacity theorem at a full registry (`L = 1`,
`v = {1}`) and, via its converse half, at the successful issuance from the
C6 witness state (`L = 2`, `v = ∅`). -/
theorem c7_accumulator_capacity_witness :
    Issuer.issue_non_revocation_claim 7 ⟨0, 0, 0, 0, 0, 0, 0, 0, 0, 0⟩ ⟨0, 0⟩ [] ⟨0⟩ 0 0
        none 0 0 0 ⟨0, [1], 1, 2⟩ =
      (.error (.invalidStructure "Accumulator is full. New one must be issued."), ⟨0, [1], 1, 2⟩) ∧
    (((⟨0, [], 2, 1⟩ : Accumulator 7).v.length : Int) < (⟨0, [], 2, 1⟩ : Accumulator 7).max_claim_num) :=
  ⟨(accumulator_capacity 7 ⟨0, 0, 0, 0, 0, 0, 0, 0, 0, 0⟩ ⟨0, 0⟩ [] ⟨0⟩ 0 0 0 0 none 0
      ⟨0, [1], 1, 2⟩).1 (by decide),
   (accumulator_capacity 7 ⟨0, 0, 0, 0, 0, 0, 0, 0, 0, 0⟩ ⟨0, 0⟩ [(1, 0), (2, 0)] ⟨0⟩ 0 0 0 0
      none 0 ⟨0, [], 2, 1⟩).2 ⟨0, 0, 0, ⟨0, 0, 0, 0, [1]⟩, 0, 1, 0⟩ 0 ⟨0 + 0, [1], 2, 2⟩
      (by decide)⟩

/-! ## C8 — attribute canonicalization at key generation -/

/-- Looking up a key in an association list built by pairing each list element
with a value succeeds exactly for the members of the list. -/
theorem lookup_map_pair_isSome (name : String) (f : String → Nat) (l : List String) :
    (List.lookup name (l.map (fun a => (a, f a)))).isSome = true ↔ name ∈ l := by
  induction l with
  | nil => simp
  | cons a rest ih =>
    by_cases hna : name = a
    · subst hna
      simp [List.lookup]
    · have hb : (name == a) = false := by simpa using hna
      simp [List.lookup, hb, ih, hna]

/-- C8 (counterexample): `attr_common_view "Passport Schema" = "passportschema"`,
but `_generate_keys` on the schema `{"Passport Schema"}` stores the attribute
base under the *verbatim* name: the lookup of the canonicalized name fails
while the lookup of the raw name succeeds — this key-generation path does not
canonicalize. -/
theorem c8_canonicalization_counterexample :
    attr_common_view "Passport Schema" = "passportschema" ∧
    ((Issuer.generate_keys ⟨1, ["Passport Schema"]⟩ 7 11 2 1 1 1 (fun _ => 1)).1.r).map Prod.fst
        = ["Passport Schema"] ∧
    List.lookup "passportschema"
        ((Issuer.generate_keys ⟨1, ["Passport Schema"]⟩ 7 11 2 1 1 1 (fun _ => 1)).1.r) = none ∧
    (List.lookup "Passport Schema"
        ((Issuer.generate_keys ⟨1, ["Passport Schema"]⟩ 7 11 2 1 1 1 (fun _ => 1)).1.r)).isSome
        = true := by
  refine ⟨by decide, by decide, by decide, by decide⟩

/-- C8 (amended): `_generate_keys` stores each per-attribute base under the
schema's attribute name exactly as written (the canonicalization
`attr_common_view` belongs to the separate libindy helper layer and is not
applied on this path), so a lookup in the public key's `r` map succeeds iff
the queried name is literally one of the schema's attribute names. -/
theorem generate_keys_r_lookup (schema : Schema) (P Q xQr xz xRms xRctxt : Nat)
    (xOf : String → Nat) (name : String) :
    (List.lookup name ((Issuer.generate_keys schema P Q xQr xz xRms xRctxt xOf).1.r)).isSome
        = true ↔ name ∈ schema.attribute_names := by
  simp only [Issuer.generate_keys]
  exact lookup_map_pair_isSome name _ schema.attribute_names

/-- C8 (witness): the amended theorem instantiated at the one-attribute schema
`{"age"}`, looked up by the same verbatim name. -/
theorem c8_generate_keys_r_witness :
    (List.lookup "age" ((Issuer.generate_keys ⟨1, ["age"]⟩ 7 11 2 1 1 1 (fun _ => 1)).1.r)).isSome
        = true :=
  (generate_keys_r_lookup ⟨1, ["age"]⟩ 7 11 2 1 1 1 (fun _ => 1) "age").mpr (by decide)

/-! ## C9 — the range of v'' -/

/-- C9: for every `rand(LARGE_VPRIME_PRIME)` draw `a < 2^LARGE_VPRIME_PRIME`
(and positive bit length), the value `v'' = a OR 2^(LARGE_VPRIME_PRIME−1)`
produced by `_generate_v_prime_prime` lies in
`[2^(LARGE_VPRIME_PRIME−1), 2^LARGE_VPRIME_PRIME)`: the OR sets the top bit
without raising the bit length. -/
theorem v_prime_prime_range (large_vprime_prime a : Nat)
    (hL : 0 < large_vprime_prime) (ha : a < 2 ^ large_vprime_prime) :
    2 ^ (large_vprime_prime - 1) ≤ Issuer.generate_v_prime_prime large_vprime_prime a ∧
    Issuer.generate_v_prime_prime large_vprime_prime a < 2 ^ large_vprime_prime := by
  unfold Issuer.generate_v_prime_prime Issuer.bitwise_or_big_int
  constructor
  · by_contra hlt
    push_neg at hlt
    have hbit : (a ||| 2 ^ (large_vprime_prime - 1)).testBit (large_vprime_prime - 1) = false :=
      Nat.testBit_lt_two_pow hlt
    rw [Nat.testBit_or] at hbit
    simp [Nat.testBit_two_pow_self] at hbit
  · refine Nat.or_lt_two_pow ha ?_
    exact Nat.pow_lt_pow_right (by omega) (by omega)

/-- C9 (witness): at `LARGE_VPRIME_PRIME = 8`, `a = 5`:
`128 ≤ 5 OR 128 = 133 < 256`. -/
theorem c9_v_prime_prime_witness :
    2 ^ (8 - 1) ≤ Issuer.generate_v_prime_prime 8 5 ∧
    Issuer.generate_v_prime_prime 8 5 < 2 ^ 8 :=
  v_prime_prime_range 8 5 (by decide) (by decide)

/-! ## C10 — missing revocation material in create_claim -/

/-- C10: when the claim definition carries a revocation public key and the
primary claim has already been computed, `create_claim` fails with
`InvalidStructure("Field secret_key_revocation not found")` if the private
part has no `secret_key_revocation`, and (that key being present) with
`InvalidStructure("Field ur not found")` if the claim request has no `ur`;
in either case no claims are issued and the registry is untouched. -/
theorem create_claim_missing_revocation_fields (q : Nat)
    (cd : ClaimDefinition q) (cdp : ClaimDefinitionPrivate q)
    (registry : RevocationRegistry q) (rp : RevocationRegistryPrivate q)
    (cr : ClaimRequest q) (attributes : List (String × List Nat))
    (user_revoc_index : Option Int) (ctxOf : Int → String → Nat)
    (large_vprime_prime v_rand e : Nat) (vr_prime_prime c : ZMod q) (timestamp : Int)
    (pk_r : RevocationPublicKey q) (pc : PrimaryClaim)
    (hpkr : cd.public_key_revocation = some pk_r)
    (hprimary : Issuer.issue_primary_claim cd.public_key cdp.secret_key cr.u
        (ctxOf registry.claim_def_seq_no cr.prover_did) attributes
        large_vprime_prime v_rand e = .ok pc) :
    (cdp.secret_key_revocation = none →
      Issuer.create_claim q cd cdp registry rp cr attributes user_revoc_index ctxOf
          large_vprime_prime v_rand e vr_prime_prime c timestamp =
        (.error (.invalidStructure "Field secret_key_revocation not found"), registry)) ∧
    (∀ sk_r, cdp.secret_key_revocation = some sk_r → cr.ur = none →
      Issuer.create_claim q cd cdp registry rp cr attributes user_revoc_index ctxOf
          large_vprime_prime v_rand e vr_prime_prime c timestamp =
        (.error (.invalidStructure "Field ur not found"), registry)) := by
  constructor
  · intro hskr
    unfold Issuer.create_claim
    rw [hprimary, hpkr, hskr]
  · intro sk_r hskr hur
    unfold Issuer.create_claim
    rw [hprimary, hpkr, hskr, hur]

/-- C10 (witness): with the C1 small key (`n = 15`) in a claim definition
carrying a (zero) revocation public key, the primary claim computes to
`(m2, A, e, v'') = (0, 2, 3, 1)`, and `create_claim` fails with the
`secret_key_revocation` message when the private revocation key is absent,
and with the `ur` message when it is present but the request has no `ur`. -/
theorem c10_create_claim_witness :
    Issuer.create_claim 7 ⟨⟨15, 1, 1, [], 1, 2⟩, some ⟨0, 0, 0, 0, 0, 0, 0, 0, 0, 0⟩, 1, "CL"⟩
        ⟨⟨1, 2⟩, none⟩ ⟨⟨0, [], 1, 1⟩, ⟨0⟩, 0⟩ ⟨⟨0⟩, []⟩ ⟨"did", 1, none⟩ [] none
        (fun _ _ => 0) 1 0 3 0 0 0 =
      (.error (.invalidStructure "Field secret_key_revocation not found"),
       ⟨⟨0, [], 1, 1⟩, ⟨0⟩, 0⟩) ∧
    Issuer.create_claim 7 ⟨⟨15, 1, 1, [], 1, 2⟩, some ⟨0, 0, 0, 0, 0, 0, 0, 0, 0, 0⟩, 1, "CL"⟩
        ⟨⟨1, 2⟩, some ⟨0, 0⟩⟩ ⟨⟨0, [], 1, 1⟩, ⟨0⟩, 0⟩ ⟨⟨0⟩, []⟩ ⟨"did", 1, none⟩ [] none
        (fun _ _ => 0) 1 0 3 0 0 0 =
      (.error (.invalidStructure "Field ur not found"), ⟨⟨0, [], 1, 1⟩, ⟨0⟩, 0⟩) :=
  ⟨(create_claim_missing_revocation_fields 7
      ⟨⟨15, 1, 1, [], 1, 2⟩, some ⟨0, 0, 0, 0, 0, 0, 0, 0, 0, 0⟩, 1, "CL"⟩ ⟨⟨1, 2⟩, none⟩
      ⟨⟨0, [], 1, 1⟩, ⟨0⟩, 0⟩ ⟨⟨0⟩, []⟩ ⟨"did", 1, none⟩ [] none (fun _ _ => 0) 1 0 3 0 0 0
      ⟨0, 0, 0, 0, 0, 0, 0, 0, 0, 0⟩ ⟨0, 2, 3, 1⟩ rfl (by decide)).1 rfl,
   (create_claim_missing_revocation_fields 7
      ⟨⟨15, 1, 1, [], 1, 2⟩, some ⟨0, 0, 0, 0, 0, 0, 0, 0, 0, 0⟩, 1, "CL"⟩
      ⟨⟨1, 2⟩, some ⟨0, 0⟩⟩ ⟨⟨0, [], 1, 1⟩, ⟨0⟩, 0⟩ ⟨⟨0⟩, []⟩ ⟨"did", 1, none⟩ [] none
      (fun _ _ => 0) 1 0 3 0 0 0 ⟨0, 0, 0, 0, 0, 0, 0, 0, 0, 0⟩ ⟨0, 2, 3, 1⟩ rfl
      (by decide)).2 ⟨0, 0⟩ rfl rfl⟩

